import Mathlib

/-!
Shallow embedding of the vector contour geometry engine of the platekit
repository (src/lib/tracing.ts and the canvas component's hit-testing and
shape-consolidation logic).  JavaScript numbers are modelled by real
numbers; every function below mirrors the corresponding source function
statement by statement.
-/

noncomputable section

/-- A 2-D point, the `{x, y}` record of the source. -/
structure Pt where
  x : ℝ
  y : ℝ

instance : Inhabited Pt := ⟨⟨0, 0⟩⟩

/-- The VectorPath record from types.ts (holes are declared optional in the
source and never consumed by the geometry engine, so they are omitted). -/
structure VectorPath where
  id : String
  points : List Pt
  closed : Bool

instance : Inhabited VectorPath := ⟨⟨"", [], true⟩⟩

/-- Euclidean distance `Math.sqrt(dx*dx + dy*dy)` as computed throughout the
source. -/
def distPts (p q : Pt) : ℝ :=
  Real.sqrt ((p.x - q.x) ^ 2 + (p.y - q.y) ^ 2)

/-- The signed-area accumulation of offsetVectorPath (tracing.ts lines
261-265): `signedArea += (points[j].x - points[i].x) * (points[j].y +
points[i].y)` with `j = (i + 1) % length`. -/
def signedArea (points : List Pt) : ℝ :=
  (List.range points.length).foldl
    (fun acc i =>
      let pj := points.getD ((i + 1) % points.length) default
      let pi' := points.getD i default
      acc + (pj.x - pi'.x) * (pj.y + pi'.y)) 0

/-- The winding test `isClockwise = signedArea > 0` (tracing.ts line 269). -/
def isClockwise (points : List Pt) : Prop :=
  signedArea points > 0

/-- The offset direction `isClockwise ? 1 : -1` (tracing.ts line 270). -/
def direction (points : List Pt) : ℝ :=
  if signedArea points > 0 then 1 else -1

/-- One offset line segment (the `{start, end}` records built per edge). -/
structure OffsetSeg where
  start : Pt
  endp : Pt

instance : Inhabited OffsetSeg := ⟨⟨default, default⟩⟩

/-- Offset segments of offsetVectorPath (tracing.ts lines 273-302): one
segment per non-degenerate edge, both endpoints pushed along the outward
normal. Degenerate edges (length below 1e-6) are skipped. -/
def offsetSegments (points : List Pt) (offsetDistance : ℝ) : List OffsetSeg :=
  let dir := direction points
  (List.range points.length).filterMap (fun i =>
    let current := points.getD i default
    let next := points.getD ((i + 1) % points.length) default
    let ex := next.x - current.x
    let ey := next.y - current.y
    let edgeLen := Real.sqrt (ex * ex + ey * ey)
    if edgeLen < 1e-6 then none
    else
      let ux := ex / edgeLen
      let uy := ey / edgeLen
      let nx := -uy * dir
      let ny := ux * dir
      some ⟨⟨current.x + nx * offsetDistance, current.y + ny * offsetDistance⟩,
            ⟨next.x + nx * offsetDistance, next.y + ny * offsetDistance⟩⟩)

/-- lineIntersection (tracing.ts lines 366-382): infinite line-line
intersection, `none` when the determinant magnitude is below 1e-10. -/
def lineIntersection (p1 p2 p3 p4 : Pt) : Option Pt :=
  let denom := (p1.x - p2.x) * (p3.y - p4.y) - (p1.y - p2.y) * (p3.x - p4.x)
  if |denom| < 1e-10 then none
  else
    let t := ((p1.x - p3.x) * (p3.y - p4.y) - (p1.y - p3.y) * (p3.x - p4.x)) / denom
    some ⟨p1.x + t * (p2.x - p1.x), p1.y + t * (p2.y - p1.y)⟩

/-- Model of JavaScript Math.atan2 (the standard piecewise definition via
arctan, with atan2 0 0 = 0). -/
def atan2 (y x : ℝ) : ℝ :=
  if 0 < x then Real.arctan (y / x)
  else if x < 0 then
    (if 0 ≤ y then Real.arctan (y / x) + Real.pi
     else Real.arctan (y / x) - Real.pi)
  else
    (if 0 < y then Real.pi / 2
     else if y < 0 then -(Real.pi / 2)
     else 0)

/-- The angle from `center` to a point, `Math.atan2(p.y - center.y, p.x -
center.x)` (tracing.ts lines 394-395). -/
def arcAngle (p center : Pt) : ℝ :=
  atan2 (p.y - center.y) (p.x - center.x)

/-- The signed angular delta of createArcJoin (tracing.ts lines 397-404):
`angle2 - angle1`, wrapped into [-pi, pi] by adding or subtracting 2*pi. -/
def arcDelta (end1 start2 center : Pt) : ℝ :=
  let angle1 := arcAngle end1 center
  let angle2 := arcAngle start2 center
  let d := angle2 - angle1
  if d > Real.pi then d - 2 * Real.pi
  else if d < -Real.pi then d + 2 * Real.pi
  else d

/-- createArcJoin (tracing.ts lines 387-424): a single point when the
angular delta is below 0.1 radians, otherwise the interior samples of the
arc, `for (let i = 1; i < steps; i++)` with `steps = max(2,
ceil(|delta| * 3))`. -/
def createArcJoin (end1 start2 center : Pt) (radius : ℝ) : List Pt :=
  let angle1 := arcAngle end1 center
  let deltaAngle := arcDelta end1 start2 center
  if |deltaAngle| < 0.1 then [end1]
  else
    let steps : ℤ := max 2 ⌈|deltaAngle| * 3⌉
    (List.range (steps.toNat - 1)).map (fun k =>
      let t := ((k + 1 : ℕ) : ℝ) / (steps : ℝ)
      let angle := angle1 + deltaAngle * t
      ⟨center.x + Real.cos angle * radius, center.y + Real.sin angle * radius⟩)

/-- The per-corner join of offsetVectorPath (tracing.ts lines 316-351):
mitre point when the line intersection exists and lies within
`offsetDistance * 3` of the original vertex, otherwise an arc join. -/
def cornerJoin (currentSeg nextSeg : OffsetSeg) (originalVertex : Pt)
    (offsetDistance : ℝ) : List Pt :=
  match lineIntersection currentSeg.start currentSeg.endp nextSeg.start nextSeg.endp with
  | some intersection =>
      let distToOriginal := Real.sqrt ((intersection.x - originalVertex.x) ^ 2 +
        (intersection.y - originalVertex.y) ^ 2)
      let maxDistance := offsetDistance * 3
      if distToOriginal ≤ maxDistance then [intersection]
      else createArcJoin currentSeg.endp nextSeg.start originalVertex offsetDistance
  | none => createArcJoin currentSeg.endp nextSeg.start originalVertex offsetDistance

/-- The joined offset ring of offsetVectorPath (tracing.ts lines 307-352):
for each offset segment, its start point followed by the join towards the
next segment; the original vertex of the join is `points[(i + 1) %
points.length]`. -/
def offsetJoinedPoints (points : List Pt) (offsetDistance : ℝ) : List Pt :=
  let segs := offsetSegments points offsetDistance
  (List.range segs.length).flatMap (fun i =>
    let currentSeg := segs.getD i default
    let nextSeg := segs.getD ((i + 1) % segs.length) default
    currentSeg.start ::
      cornerJoin currentSeg nextSeg (points.getD ((i + 1) % points.length) default)
        offsetDistance)

/-- smoothOffsetPath (tracing.ts lines 429-448): one pass of weighted
neighbour averaging with factor 0.3 at half weight; the tolerance argument
is unused in the source as well. -/
def smoothOffsetPath (points : List Pt) (_tolerance : ℝ) : List Pt :=
  if points.length < 3 then points
  else
    let smoothingFactor : ℝ := 0.3
    (List.range points.length).map (fun i =>
      let prev := points.getD ((i + points.length - 1) % points.length) default
      let current := points.getD i default
      let next := points.getD ((i + 1) % points.length) default
      ⟨current.x + (prev.x + next.x - 2 * current.x) * smoothingFactor * 0.5,
       current.y + (prev.y + next.y - 2 * current.y) * smoothingFactor * 0.5⟩)

/-- offsetVectorPath (tracing.ts lines 253-361). -/
def offsetVectorPath (path : VectorPath) (offsetDistance : ℝ) : VectorPath :=
  if path.points.length < 3 ∨ offsetDistance = 0 then path
  else
    let segs := offsetSegments path.points offsetDistance
    if segs.length = 0 then path
    else
      let offsetPoints := offsetJoinedPoints path.points offsetDistance
      let smoothedPoints := smoothOffsetPath offsetPoints (offsetDistance * 0.1)
      { path with points := smoothedPoints }

/-- The keep-if-far-enough scan of reducePoints (tracing.ts lines 209-222):
keep a point only when its distance to the last kept point is at least the
tolerance. -/
def reduceAux (tolerance : ℝ) : Pt → List Pt → List Pt
  | _, [] => []
  | previous, current :: rest =>
      if distPts current previous ≥ tolerance then
        current :: reduceAux tolerance current rest
      else reduceAux tolerance previous rest

/-- reducePoints (tracing.ts lines 198-247). -/
def reducePoints (path : VectorPath) (tolerance : ℝ) : VectorPath :=
  if path.points.length ≤ 2 then path
  else
    match path.points with
    | [] => path
    | p0 :: rest =>
      let reducedPoints := p0 :: reduceAux tolerance p0 rest
      let reducedPoints2 :=
        if path.closed ∧ 2 < reducedPoints.length then
          (if distPts (reducedPoints.getD (reducedPoints.length - 1) default) p0 < tolerance
           then reducedPoints.dropLast else reducedPoints)
        else reducedPoints
      if reducedPoints2.length < 3 then path
      else { path with points := reducedPoints2 }

/-- A recorded self-intersection, `{x, y, seg1, seg2}` (canvas component). -/
structure SelfIntersection where
  x : ℝ
  y : ℝ
  seg1 : ℕ
  seg2 : ℕ

instance : Inhabited SelfIntersection := ⟨⟨0, 0, 0, 0⟩⟩

/-- lineSegmentIntersection (canvas component): bounded segment-segment
intersection with both parameters t and u constrained to [0, 1]; parallel
segments (determinant magnitude below 1e-10) yield none. -/
def lineSegmentIntersection (p1 p2 p3 p4 : Pt) : Option Pt :=
  let denom := (p1.x - p2.x) * (p3.y - p4.y) - (p1.y - p2.y) * (p3.x - p4.x)
  if |denom| < 1e-10 then none
  else
    let t := ((p1.x - p3.x) * (p3.y - p4.y) - (p1.y - p3.y) * (p3.x - p4.x)) / denom
    let u := -((p1.x - p2.x) * (p1.y - p3.y) - (p1.y - p2.y) * (p1.x - p3.x)) / denom
    if 0 ≤ t ∧ t ≤ 1 ∧ 0 ≤ u ∧ u ≤ 1 then
      some ⟨p1.x + t * (p2.x - p1.x), p1.y + t * (p2.y - p1.y)⟩
    else none

/-- findSelfIntersections (canvas component): `for i in [0, len-1)` and
`for j = i + 2; j < len - 1`, skipping `|i - j| <= 1` and the pair
`i == 0 && j == len - 2`, record every bounded intersection. -/
def findSelfIntersections (points : List Pt) : List SelfIntersection :=
  (List.range (points.length - 1)).flatMap (fun i =>
    (List.range (points.length - 1)).filterMap (fun j =>
      if j < i + 2 then none
      else if j ≤ i + 1 ∨ (i = 0 ∧ j = points.length - 2) then none
      else
        (lineSegmentIntersection (points.getD i default)
            (points.getD (i + 1) default) (points.getD j default)
            (points.getD (j + 1) default)).map (fun p => ⟨p.x, p.y, i, j⟩)))

/-- pointInPolygon (canvas component): standard ray-casting parity walk,
`for (i = 0, j = len - 1; i < len; j = i++)`. -/
def pointInPolygon (point : Pt) (polygon : List Pt) : Bool :=
  (List.range polygon.length).foldl
    (fun inside i =>
      let vi := polygon.getD i default
      let vj := polygon.getD ((i + polygon.length - 1) % polygon.length) default
      if Xor' (vi.y > point.y) (vj.y > point.y) ∧
          point.x < (vj.x - vi.x) * (point.y - vi.y) / (vj.y - vi.y) + vi.x
      then !inside else inside)
    false

/-- isPointInIntersectionLoop (canvas component): the sub-ring from the
intersection point through vertices seg1+1 .. seg2 and back, ray-cast
against the query point. -/
def isPointInIntersectionLoop (point : Pt) (inter : SelfIntersection)
    (points : List Pt) : Bool :=
  let ip : Pt := ⟨inter.x, inter.y⟩
  let loopPoints :=
    ip :: ((List.range' (inter.seg1 + 1) (inter.seg2 - inter.seg1)).map
      (fun i => points.getD i default) ++ [ip])
  pointInPolygon point loopPoints

/-- checkPointInSelfIntersectionLoops (canvas component): true when the
point lies in at least one loop of some recorded self-intersection. -/
def checkPointInSelfIntersectionLoops (point : Pt) (renderedPoints : List Pt) : Bool :=
  (findSelfIntersections renderedPoints).any
    (fun inter => isPointInIntersectionLoop point inter renderedPoints)

/-- The slice of the canvas layer state that the consolidation gesture
reads and writes: the cut layer's contour list, its stored offset (mm), and
the image-pixels-per-layer-unit scale used for the mm conversion. -/
structure LayerModel where
  vectorPaths : List VectorPath
  offset : ℝ
  imageScale : ℝ

/-- The mm-to-image-pixels conversion of the stored offset
(`offset * (72 / 25.4) * imageScale`, canvas component). -/
def offsetInImagePixels (L : LayerModel) : ℝ :=
  L.offset * (72 / 25.4) * L.imageScale

/-- The currently-rendered point sets: the stored offset applied to every
contour when it is nonzero (canvas component, consolidateHighlightedContours
and updateHighlightedContours). -/
def pathsToConsolidate (L : LayerModel) : List VectorPath :=
  if L.offset ≠ 0 then
    L.vectorPaths.map (fun p => offsetVectorPath p (offsetInImagePixels L))
  else L.vectorPaths

/-- consolidateHighlightedContours (canvas component). The external
boolean-union collaborator is a parameter; `none` models a throw. The
result is the `{vectorPaths, offset}` payload passed to onLayerUpdate, or
`none` when the gesture makes no structural change. -/
def consolidateHighlightedContours
    (unite : List VectorPath → Option (List VectorPath))
    (L : LayerModel) (highlighted : List ℕ) : Option (List VectorPath × ℝ) :=
  if highlighted.length < 2 then none
  else
    let paths := pathsToConsolidate L
    let selectedContours := highlighted.map (fun i => paths.getD i default)
    let remainingContours :=
      ((List.range paths.length).filter (fun i => !(highlighted.contains i))).map
        (fun i => paths.getD i default)
    match unite selectedContours with
    | some unitedContours => some (remainingContours ++ unitedContours, 0)
    | none => none

/-- handleShapeBuildMouseUp (canvas component), restricted to its effect on
the layer: consolidation runs only when more than one contour was touched,
and a successful consolidation installs the new contour list and offset. -/
def mouseUpLayer (unite : List VectorPath → Option (List VectorPath))
    (L : LayerModel) (highlighted : List ℕ) : LayerModel :=
  if 1 < highlighted.length then
    match consolidateHighlightedContours unite L highlighted with
    | some (c, o) => { L with vectorPaths := c, offset := o }
    | none => L
  else L

/-! ## Theorems -/

/-- C8: offsetVectorPath returns the input unchanged for paths with fewer
than 3 points or a zero offset distance, and reducePoints returns any path
with fewer than 3 points unchanged. -/
theorem c8_early_out_identity (path : VectorPath) (d t : ℝ) :
    (path.points.length < 3 ∨ d = 0 → offsetVectorPath path d = path) ∧
    (path.points.length < 3 → reducePoints path t = path) := by
  constructor
  · intro h
    simp [offsetVectorPath, h]
  · intro h
    have h2 : path.points.length ≤ 2 := by omega
    simp [reducePoints, h2]

/-- C8 witness: the early-outs evaluated on a 2-point path and on a
triangle with zero distance. -/
theorem c8_early_out_identity_witness :
    offsetVectorPath ⟨"w", [⟨0, 0⟩, ⟨1, 1⟩], true⟩ 5 = ⟨"w", [⟨0, 0⟩, ⟨1, 1⟩], true⟩ ∧
    offsetVectorPath ⟨"t", [⟨0, 0⟩, ⟨1, 0⟩, ⟨0, 1⟩], true⟩ 0 =
      ⟨"t", [⟨0, 0⟩, ⟨1, 0⟩, ⟨0, 1⟩], true⟩ ∧
    reducePoints ⟨"w", [⟨0, 0⟩, ⟨1, 1⟩], true⟩ 7 = ⟨"w", [⟨0, 0⟩, ⟨1, 1⟩], true⟩ :=
  ⟨(c8_early_out_identity _ 5 7).1 (Or.inl (by simp)),
   (c8_early_out_identity _ 0 0).1 (Or.inr rfl),
   (c8_early_out_identity _ 5 7).2 (by simp)⟩

/-- Shoelace accumulation evaluated on the y-down clockwise unit-10 square. -/
lemma signedArea_square_eval :
    signedArea [⟨0, 0⟩, ⟨10, 0⟩, ⟨10, 10⟩, ⟨0, 10⟩] = -200 := by
  have hr : List.range 4 = [0, 1, 2, 3] := rfl
  simp [signedArea, hr, List.getD]
  norm_num

/-- C3 counterexample: the square [(0,0),(10,0),(10,10),(0,10)] does not
yield a positive shoelace sum, so isClockwise is not true for it. -/
theorem c3_winding_counterexample :
    ¬ (0 < signedArea [⟨0, 0⟩, ⟨10, 0⟩, ⟨10, 10⟩, ⟨0, 10⟩] ∧
       isClockwise [⟨0, 0⟩, ⟨10, 0⟩, ⟨10, 10⟩, ⟨0, 10⟩]) := by
  rw [isClockwise, signedArea_square_eval]
  norm_num

/-- C3 amended: the square [(0,0),(10,0),(10,10),(0,10)], clockwise on a
y-down screen, yields shoelace sum -200, so the code classifies it as
counter-clockwise (isClockwise = false); the `signedArea > 0` test detects
clockwise order under the y-up convention instead. -/
theorem c3_winding_square :
    signedArea [⟨0, 0⟩, ⟨10, 0⟩, ⟨10, 10⟩, ⟨0, 10⟩] = -200 ∧
    ¬ isClockwise [⟨0, 0⟩, ⟨10, 0⟩, ⟨10, 10⟩, ⟨0, 10⟩] ∧
    direction [⟨0, 0⟩, ⟨10, 0⟩, ⟨10, 10⟩, ⟨0, 10⟩] = -1 := by
  refine ⟨signedArea_square_eval, ?_, ?_⟩
  · rw [isClockwise, signedArea_square_eval]
    norm_num
  · rw [direction, signedArea_square_eval]
    norm_num

/-- C10: every record returned by findSelfIntersections has non-adjacent
segment indices, both bounded away from the closing edge: seg2 is at least
seg1 + 2, at most n - 2, and the pair (0, n - 2) never occurs. -/
theorem c10_self_intersection_indices (points : List Pt) (rec : SelfIntersection)
    (h : rec ∈ findSelfIntersections points) :
    rec.seg1 + 2 ≤ rec.seg2 ∧ rec.seg2 ≤ points.length - 2 ∧
    ¬(rec.seg1 = 0 ∧ rec.seg2 = points.length - 2) := by
  simp only [findSelfIntersections, List.mem_flatMap, List.mem_filterMap,
    List.mem_range] at h
  obtain ⟨i, hi, j, hj, hcond⟩ := h
  by_cases h1 : j < i + 2
  · simp [h1] at hcond
  · by_cases h2 : j ≤ i + 1 ∨ (i = 0 ∧ j = points.length - 2)
    · simp [h1, h2] at hcond
    · simp only [h1, h2, if_false, Option.map_eq_some'] at hcond
      obtain ⟨p, _, hp⟩ := hcond
      push_neg at h2
      subst hp
      simp only []
      refine ⟨by omega, by omega, ?_⟩
      intro hc
      exact absurd (h2.2 hc.1) (by simp [hc.2])

/-- Bounded intersection of the two diagonal strokes of the figure-eight. -/
lemma lsi_diag : lineSegmentIntersection ⟨0, 0⟩ ⟨10, 10⟩ ⟨10, 0⟩ ⟨0, 10⟩ = some ⟨5, 5⟩ := by
  simp only [lineSegmentIntersection]
  norm_num

/-- The two vertical strokes of the closed figure-eight are parallel. -/
lemma lsi_vert : lineSegmentIntersection ⟨10, 10⟩ ⟨10, 0⟩ ⟨0, 10⟩ ⟨0, 0⟩ = none := by
  simp only [lineSegmentIntersection]
  norm_num

/-- On the 4-point figure-eight the only crossing pair of segments is
(0, 2), which is exactly the excluded pair (0, length - 2), so nothing is
recorded. -/
lemma findSelf_fig8_eval :
    findSelfIntersections [⟨0, 0⟩, ⟨10, 10⟩, ⟨10, 0⟩, ⟨0, 10⟩] = [] := by
  simp [findSelfIntersections]
  intro x hx a ha h1 h2 h3
  exact absurd (by omega : a = 2) (h3 (by omega))

/-- On the 5-point figure-eight (first point repeated) the crossing pair
(0, 2) is no longer the excluded pair, and the crossing at (5,5) is found. -/
lemma findSelf_fig8c_eval :
    findSelfIntersections [⟨0, 0⟩, ⟨10, 10⟩, ⟨10, 0⟩, ⟨0, 10⟩, ⟨0, 0⟩] =
      [⟨5, 5, 0, 2⟩] := by
  have g0 : ([⟨0, 0⟩, ⟨10, 10⟩, ⟨10, 0⟩, ⟨0, 10⟩, ⟨0, 0⟩] : List Pt).getD 0 default = ⟨0, 0⟩ := rfl
  have g1 : ([⟨0, 0⟩, ⟨10, 10⟩, ⟨10, 0⟩, ⟨0, 10⟩, ⟨0, 0⟩] : List Pt).getD 1 default = ⟨10, 10⟩ := rfl
  have g2 : ([⟨0, 0⟩, ⟨10, 10⟩, ⟨10, 0⟩, ⟨0, 10⟩, ⟨0, 0⟩] : List Pt).getD 2 default = ⟨10, 0⟩ := rfl
  have g3 : ([⟨0, 0⟩, ⟨10, 10⟩, ⟨10, 0⟩, ⟨0, 10⟩, ⟨0, 0⟩] : List Pt).getD 3 default = ⟨0, 10⟩ := rfl
  have g4 : ([⟨0, 0⟩, ⟨10, 10⟩, ⟨10, 0⟩, ⟨0, 10⟩, ⟨0, 0⟩] : List Pt).getD 4 default = ⟨0, 0⟩ := rfl
  simp only [findSelfIntersections,
    show (([⟨0, 0⟩, ⟨10, 10⟩, ⟨10, 0⟩, ⟨0, 10⟩, ⟨0, 0⟩] : List Pt).length - 1) = 4 from rfl,
    show List.range 4 = [0, 1, 2, 3] from rfl, List.flatMap_cons, List.flatMap_nil,
    List.filterMap_cons, List.append_nil, g0, g1, g2, g3, g4]
  norm_num [lsi_diag, lsi_vert]

/-- Ray cast of the point (8,5) against the right lobe of the figure-eight. -/
lemma pip_lobe_eval :
    pointInPolygon ⟨8, 5⟩ [⟨5, 5⟩, ⟨10, 10⟩, ⟨10, 0⟩, ⟨5, 5⟩] = true := by
  have g0 : ([⟨5, 5⟩, ⟨10, 10⟩, ⟨10, 0⟩, ⟨5, 5⟩] : List Pt).getD 0 default = ⟨5, 5⟩ := rfl
  have g1 : ([⟨5, 5⟩, ⟨10, 10⟩, ⟨10, 0⟩, ⟨5, 5⟩] : List Pt).getD 1 default = ⟨10, 10⟩ := rfl
  have g2 : ([⟨5, 5⟩, ⟨10, 10⟩, ⟨10, 0⟩, ⟨5, 5⟩] : List Pt).getD 2 default = ⟨10, 0⟩ := rfl
  have g3 : ([⟨5, 5⟩, ⟨10, 10⟩, ⟨10, 0⟩, ⟨5, 5⟩] : List Pt).getD 3 default = ⟨5, 5⟩ := rfl
  simp only [pointInPolygon,
    show (([⟨5, 5⟩, ⟨10, 10⟩, ⟨10, 0⟩, ⟨5, 5⟩] : List Pt)).length = 4 from rfl,
    show List.range 4 = [0, 1, 2, 3] from rfl, List.foldl_cons, List.foldl_nil]
  norm_num [g0, g1, g2, g3, Xor']

/-- The point (8,5) lies in the loop of the recorded (5,5) crossing. -/
lemma loop_fig8c_eval :
    isPointInIntersectionLoop ⟨8, 5⟩ ⟨5, 5, 0, 2⟩
      [⟨0, 0⟩, ⟨10, 10⟩, ⟨10, 0⟩, ⟨0, 10⟩, ⟨0, 0⟩] = true := by
  simp only [isPointInIntersectionLoop, show List.range' (0 + 1) (2 - 0) = [1, 2] from rfl,
    List.map_cons, List.map_nil]
  simp only [show ([⟨0, 0⟩, ⟨10, 10⟩, ⟨10, 0⟩, ⟨0, 10⟩, ⟨0, 0⟩] : List Pt).getD 1 default = ⟨10, 10⟩ from rfl,
    show ([⟨0, 0⟩, ⟨10, 10⟩, ⟨10, 0⟩, ⟨0, 10⟩, ⟨0, 0⟩] : List Pt).getD 2 default = ⟨10, 0⟩ from rfl]
  exact pip_lobe_eval

/-- C1 counterexample: on the 4-point figure-eight [(0,0),(10,10),(10,0),
(0,10)] the detector records nothing, because its only crossing pair of
segments is the excluded pair (0, length - 2); consequently the
loop-containment test is false even for the point (8,5) inside the right
lobe. -/
theorem c1_fig8_counterexample :
    findSelfIntersections [⟨0, 0⟩, ⟨10, 10⟩, ⟨10, 0⟩, ⟨0, 10⟩] = [] ∧
    checkPointInSelfIntersectionLoops ⟨8, 5⟩ [⟨0, 0⟩, ⟨10, 10⟩, ⟨10, 0⟩, ⟨0, 10⟩] = false :=
  ⟨findSelf_fig8_eval, by
    simp [checkPointInSelfIntersectionLoops, findSelf_fig8_eval]⟩

/-- C1 amended: representing the same closed figure-eight with the first
point repeated, [(0,0),(10,10),(10,0),(0,10),(0,0)], the detector records
exactly one self-intersection, at (5,5) with segment indices (0,2), and
the point (8,5) inside the right lobe reports inLoop = true. -/
theorem c1_figure_eight :
    findSelfIntersections [⟨0, 0⟩, ⟨10, 10⟩, ⟨10, 0⟩, ⟨0, 10⟩, ⟨0, 0⟩] = [⟨5, 5, 0, 2⟩] ∧
    checkPointInSelfIntersectionLoops ⟨8, 5⟩ [⟨0, 0⟩, ⟨10, 10⟩, ⟨10, 0⟩, ⟨0, 10⟩, ⟨0, 0⟩] = true :=
  ⟨findSelf_fig8c_eval, by
    simp only [checkPointInSelfIntersectionLoops, findSelf_fig8c_eval, List.any_cons,
      List.any_nil, loop_fig8c_eval, Bool.or_false]⟩

/-- C10 witness: the invariant applied to the one record returned on the
5-point figure-eight. -/
theorem c10_self_intersection_indices_witness :
    (⟨5, 5, 0, 2⟩ : SelfIntersection).seg1 + 2 ≤ (⟨5, 5, 0, 2⟩ : SelfIntersection).seg2 ∧
    (⟨5, 5, 0, 2⟩ : SelfIntersection).seg2 ≤
      ([⟨0, 0⟩, ⟨10, 10⟩, ⟨10, 0⟩, ⟨0, 10⟩, ⟨0, 0⟩] : List Pt).length - 2 ∧
    ¬((⟨5, 5, 0, 2⟩ : SelfIntersection).seg1 = 0 ∧
      (⟨5, 5, 0, 2⟩ : SelfIntersection).seg2 =
        ([⟨0, 0⟩, ⟨10, 10⟩, ⟨10, 0⟩, ⟨0, 10⟩, ⟨0, 0⟩] : List Pt).length - 2) :=
  c10_self_intersection_indices _ _ (by rw [findSelf_fig8c_eval]; exact List.mem_singleton_self _)

/-- Each kept point of the scan is at least the tolerance away from the
previously kept point. -/
lemma reduceAux_chain (t : ℝ) (prev : Pt) (l : List Pt) :
    List.Chain' (fun a b => t ≤ distPts b a) (prev :: reduceAux t prev l) := by
  induction l generalizing prev with
  | nil => simp [reduceAux]
  | cons c rest ih =>
    rw [reduceAux]
    by_cases h : distPts c prev ≥ t
    · rw [if_pos h]
      exact List.chain'_cons.mpr ⟨h, ih c⟩
    · rw [if_neg h]
      exact ih prev

/-- The scan never adds points. -/
lemma reduceAux_length (t : ℝ) (prev : Pt) (l : List Pt) :
    (reduceAux t prev l).length ≤ l.length := by
  induction l generalizing prev with
  | nil => simp [reduceAux]
  | cons c rest ih =>
    rw [reduceAux]
    by_cases h : distPts c prev ≥ t
    · rw [if_pos h]
      simpa using ih c
    · rw [if_neg h]
      exact (ih prev).trans (by simp)

/-- Dropping the last element preserves consecutive-pair properties. -/
lemma chain'_dropLast {R : Pt → Pt → Prop} {l : List Pt} (h : List.Chain' R l) :
    List.Chain' R l.dropLast := by
  rw [List.dropLast_eq_take]
  exact h.take _

/-- Unfolding of reducePoints on a nonempty point list past the early-out. -/
lemma reducePoints_cons (path : VectorPath) (t : ℝ) (p0 : Pt) (rest : List Pt)
    (hp : path.points = p0 :: rest) (h : ¬ path.points.length ≤ 2) :
    reducePoints path t =
      (let reducedPoints := p0 :: reduceAux t p0 rest
       let reducedPoints2 :=
        if path.closed ∧ 2 < reducedPoints.length then
          (if distPts (reducedPoints.getD (reducedPoints.length - 1) default) p0 < t
           then reducedPoints.dropLast else reducedPoints)
        else reducedPoints
       if reducedPoints2.length < 3 then path
       else { path with points := reducedPoints2 }) := by
  rw [reducePoints, if_neg h]
  simp only [hp]

/-- C7 amended: reducePoints never returns more points than it was given,
and whenever it returns something other than the original path, all
consecutive non-seam pairs of the output are at least the tolerance apart;
the closing seam between the last and the first kept point carries no such
guarantee (only a single trailing point is ever dropped). -/
theorem c7_reduce_spacing (path : VectorPath) (t : ℝ) :
    (reducePoints path t).points.length ≤ path.points.length ∧
    (reducePoints path t = path ∨
      List.Chain' (fun a b => t ≤ distPts b a) (reducePoints path t).points) := by
  by_cases h : path.points.length ≤ 2
  · rw [reducePoints, if_pos h]
    exact ⟨le_refl _, Or.inl rfl⟩
  · obtain ⟨p0, rest, hp⟩ : ∃ p0 rest, path.points = p0 :: rest := by
      cases hq : path.points with
      | nil => rw [hq] at h; simp at h
      | cons a l => exact ⟨a, l, rfl⟩
    have hlen : (p0 :: reduceAux t p0 rest).length ≤ path.points.length := by
      have := reduceAux_length t p0 rest
      rw [hp]
      simp only [List.length_cons]
      omega
    have hchain := reduceAux_chain t p0 rest
    have hdllen : (p0 :: reduceAux t p0 rest).dropLast.length ≤ path.points.length := by
      have := List.length_dropLast (p0 :: reduceAux t p0 rest)
      omega
    simp only [reducePoints_cons path t p0 rest hp h]
    split_ifs with hA hB hC hC' hC'' <;>
      first
        | exact ⟨le_refl _, Or.inl rfl⟩
        | exact ⟨by simpa using hdllen, Or.inr (by simpa using chain'_dropLast hchain)⟩
        | exact ⟨by simpa using hlen, Or.inr (by simpa using hchain)⟩

/-- Distance evaluation: from (0,0) to (9,0). -/
lemma dist_nine : distPts ⟨9, 0⟩ ⟨0, 0⟩ = 9 := by
  rw [distPts, Real.sqrt_eq_cases]
  norm_num

/-- Distance evaluation: from (9,0) to (4,0). -/
lemma dist_five : distPts ⟨4, 0⟩ ⟨9, 0⟩ = 5 := by
  rw [distPts, Real.sqrt_eq_cases]
  norm_num

/-- Distance evaluation: from (4,0) to (0,4) is the root of 32, above 5. -/
lemma dist_sqrt32 : 5 ≤ distPts ⟨0, 4⟩ ⟨4, 0⟩ := by
  rw [distPts, show ((0 : ℝ) - 4) ^ 2 + ((4 : ℝ) - 0) ^ 2 = 32 by norm_num]
  exact (Real.le_sqrt (by norm_num) (by norm_num)).mpr (by norm_num)

/-- Distance evaluation: from (0,0) to (0,4). -/
lemma dist_four_a : distPts ⟨0, 4⟩ ⟨0, 0⟩ = 4 := by
  rw [distPts, Real.sqrt_eq_cases]
  norm_num

/-- Distance evaluation: from (0,0) to (4,0). -/
lemma dist_four_b : distPts ⟨4, 0⟩ ⟨0, 0⟩ = 4 := by
  rw [distPts, Real.sqrt_eq_cases]
  norm_num

/-- The keep-scan on [(0,0),(9,0),(4,0),(0,4)] with tolerance 5 keeps every
point. -/
lemma reduceAux_seam_eval :
    reduceAux 5 ⟨0, 0⟩ [⟨9, 0⟩, ⟨4, 0⟩, ⟨0, 4⟩] = [⟨9, 0⟩, ⟨4, 0⟩, ⟨0, 4⟩] := by
  rw [reduceAux, if_pos (show distPts ⟨9, 0⟩ ⟨0, 0⟩ ≥ 5 by rw [dist_nine]; norm_num)]
  rw [reduceAux, if_pos (show distPts ⟨4, 0⟩ ⟨9, 0⟩ ≥ 5 by rw [dist_five])]
  rw [reduceAux, if_pos (show distPts ⟨0, 4⟩ ⟨4, 0⟩ ≥ 5 from dist_sqrt32)]
  rw [reduceAux]

/-- C7 counterexample: on the closed path [(0,0),(9,0),(4,0),(0,4)] with
tolerance 5, the seam-drop removes (0,4) and the accepted output ends with
(4,0), which is only 4 away from the first point (0,0): two consecutive
output points (across the closing seam) are closer than the tolerance even
though the reduction was not rejected. -/
theorem c7_seam_counterexample :
    (reducePoints ⟨"p", [⟨0, 0⟩, ⟨9, 0⟩, ⟨4, 0⟩, ⟨0, 4⟩], true⟩ 5).points =
      [⟨0, 0⟩, ⟨9, 0⟩, ⟨4, 0⟩] ∧
    reducePoints ⟨"p", [⟨0, 0⟩, ⟨9, 0⟩, ⟨4, 0⟩, ⟨0, 4⟩], true⟩ 5 ≠
      ⟨"p", [⟨0, 0⟩, ⟨9, 0⟩, ⟨4, 0⟩, ⟨0, 4⟩], true⟩ ∧
    distPts ⟨4, 0⟩ ⟨0, 0⟩ < 5 := by
  have hred : reducePoints ⟨"p", [⟨0, 0⟩, ⟨9, 0⟩, ⟨4, 0⟩, ⟨0, 4⟩], true⟩ 5 =
      ⟨"p", [⟨0, 0⟩, ⟨9, 0⟩, ⟨4, 0⟩], true⟩ := by
    rw [reducePoints_cons ⟨"p", [⟨0, 0⟩, ⟨9, 0⟩, ⟨4, 0⟩, ⟨0, 4⟩], true⟩ 5 ⟨0, 0⟩
      [⟨9, 0⟩, ⟨4, 0⟩, ⟨0, 4⟩] rfl (by simp)]
    simp only [reduceAux_seam_eval]
    norm_num [dist_four_a]
  refine ⟨by rw [hred], by rw [hred]; intro hcontra; simp at hcontra,
    by rw [dist_four_b]; norm_num⟩

/-- C9: smoothOffsetPath preserves the length of the ring; for rings of at
least 3 points every output point is p + 0.15 * (prev + next - 2p) with the
cyclic neighbours taken from the unsmoothed input (a single pass); and the
point list produced by offsetVectorPath is exactly this smoothing applied
once to the joined offset ring. -/
theorem c9_smoothing (pts : List Pt) (tol : ℝ) :
    (smoothOffsetPath pts tol).length = pts.length ∧
    (3 ≤ pts.length → ∀ i, i < pts.length →
      (smoothOffsetPath pts tol).getD i default =
        (let prev := pts.getD ((i + pts.length - 1) % pts.length) default
         let current := pts.getD i default
         let next := pts.getD ((i + 1) % pts.length) default
         (⟨current.x + 0.15 * (prev.x + next.x - 2 * current.x),
           current.y + 0.15 * (prev.y + next.y - 2 * current.y)⟩ : Pt))) ∧
    (∀ (path : VectorPath) (d : ℝ), ¬(path.points.length < 3 ∨ d = 0) →
      ¬ (offsetSegments path.points d).length = 0 →
      (offsetVectorPath path d).points =
        smoothOffsetPath (offsetJoinedPoints path.points d) (d * 0.1)) := by
  refine ⟨?_, ?_, ?_⟩
  · rw [smoothOffsetPath]
    split_ifs with hlt
    · rfl
    · simp
  · intro h3 i hi
    rw [smoothOffsetPath, if_neg (by omega)]
    have hlt : i < ((List.range pts.length).map (fun i =>
        let prev := pts.getD ((i + pts.length - 1) % pts.length) default
        let current := pts.getD i default
        let next := pts.getD ((i + 1) % pts.length) default
        (⟨current.x + (prev.x + next.x - 2 * current.x) * 0.3 * 0.5,
          current.y + (prev.y + next.y - 2 * current.y) * 0.3 * 0.5⟩ : Pt))).length := by
      simpa using hi
    rw [List.getD_eq_getElem _ _ hlt]
    rw [List.getElem_map]
    simp only [List.getElem_range, Pt.mk.injEq]
    constructor <;> ring
  · intro path d h hseg
    rw [offsetVectorPath, if_neg h]
    simp only [if_neg hseg]

/-- An edge of length 2 is not degenerate. -/
lemma sqrt4_not_small : ¬ (Real.sqrt 4 < 1 / 1000000) := by
  push_neg
  exact (Real.le_sqrt (by norm_num) (by norm_num)).mpr (by norm_num)

/-- An edge of squared length 8 is not degenerate. -/
lemma sqrt8_not_small : ¬ (Real.sqrt 8 < 1 / 1000000) := by
  push_neg
  exact (Real.le_sqrt (by norm_num) (by norm_num)).mpr (by norm_num)

/-- The triangle (0,0),(2,0),(0,2) produces one offset segment per edge. -/
lemma offsetSegments_tri_len : (offsetSegments [⟨0, 0⟩, ⟨2, 0⟩, ⟨0, 2⟩] 1).length = 3 := by
  have g0 : ([⟨0, 0⟩, ⟨2, 0⟩, ⟨0, 2⟩] : List Pt).getD 0 default = ⟨0, 0⟩ := rfl
  have g1 : ([⟨0, 0⟩, ⟨2, 0⟩, ⟨0, 2⟩] : List Pt).getD 1 default = ⟨2, 0⟩ := rfl
  have g2 : ([⟨0, 0⟩, ⟨2, 0⟩, ⟨0, 2⟩] : List Pt).getD 2 default = ⟨0, 2⟩ := rfl
  simp only [offsetSegments, show (([⟨0, 0⟩, ⟨2, 0⟩, ⟨0, 2⟩] : List Pt)).length = 3 from rfl,
    show List.range 3 = [0, 1, 2] from rfl, List.filterMap_cons, List.filterMap_nil]
  norm_num [g0, g1, g2, sqrt4_not_small, sqrt8_not_small]

/-- C9 witness: the smoothing pass evaluated on the triangle
(0,0),(2,0),(0,2), and the offsetVectorPath pipeline at distance 1. -/
theorem c9_smoothing_witness :
    (smoothOffsetPath [⟨0, 0⟩, ⟨2, 0⟩, ⟨0, 2⟩] 1).length = 3 ∧
    (smoothOffsetPath [⟨0, 0⟩, ⟨2, 0⟩, ⟨0, 2⟩] 1).getD 0 default =
      (⟨0 + 0.15 * (0 + 2 - 2 * 0), 0 + 0.15 * (2 + 0 - 2 * 0)⟩ : Pt) ∧
    (offsetVectorPath ⟨"t", [⟨0, 0⟩, ⟨2, 0⟩, ⟨0, 2⟩], true⟩ 1).points =
      smoothOffsetPath (offsetJoinedPoints [⟨0, 0⟩, ⟨2, 0⟩, ⟨0, 2⟩] 1) (1 * 0.1) := by
  refine ⟨(c9_smoothing [⟨0, 0⟩, ⟨2, 0⟩, ⟨0, 2⟩] 1).1.trans (by simp), ?_, ?_⟩
  · have h := (c9_smoothing [⟨0, 0⟩, ⟨2, 0⟩, ⟨0, 2⟩] 1).2.1 (by simp) 0 (by simp)
    rw [h]
    norm_num [List.getD]
  · exact (c9_smoothing [⟨0, 0⟩, ⟨2, 0⟩, ⟨0, 2⟩] 1).2.2 ⟨"t", [⟨0, 0⟩, ⟨2, 0⟩, ⟨0, 2⟩], true⟩ 1
      (by simp) (by rw [offsetSegments_tri_len]; norm_num)

/-- Every sample of the form center + radius * (cos angle, sin angle) lies
at distance |radius| from the center, for either sign of the radius. -/
lemma distPts_on_circle (center : Pt) (θ radius : ℝ) :
    distPts ⟨center.x + Real.cos θ * radius, center.y + Real.sin θ * radius⟩ center =
      |radius| := by
  rw [distPts]
  show Real.sqrt ((center.x + Real.cos θ * radius - center.x) ^ 2 +
    (center.y + Real.sin θ * radius - center.y) ^ 2) = |radius|
  rw [show (center.x + Real.cos θ * radius - center.x) ^ 2 +
      (center.y + Real.sin θ * radius - center.y) ^ 2 = radius ^ 2 by
    linear_combination radius ^ 2 * Real.sin_sq_add_cos_sq θ]
  exact Real.sqrt_sq_eq_abs radius

/-- C4 amended: when the wrapped angular delta is below 0.1 radians the
join contributes the single point end1; otherwise the arc loop
`for (i = 1; i < steps; i++)` emits max(2, ceil(|delta| * 3)) - 1
interpolated points (one fewer than the steps count), each of which lies on
the arc centered at the original vertex with radius |distance|. -/
theorem c4_arc_join (end1 start2 center : Pt) (radius : ℝ) :
    (|arcDelta end1 start2 center| < 0.1 → createArcJoin end1 start2 center radius = [end1]) ∧
    (0.1 ≤ |arcDelta end1 start2 center| →
      (createArcJoin end1 start2 center radius).length =
        (max 2 ⌈|arcDelta end1 start2 center| * 3⌉).toNat - 1 ∧
      ∀ p ∈ createArcJoin end1 start2 center radius, distPts p center = |radius|) := by
  constructor
  · intro h
    rw [createArcJoin, if_pos h]
  · intro h
    rw [createArcJoin, if_neg (not_lt.mpr h)]
    constructor
    · simp
    · intro p hp
      simp only [List.mem_map, List.mem_range] at hp
      obtain ⟨k, -, rfl⟩ := hp
      exact distPts_on_circle center _ radius

/-- atan2 along the positive x axis. -/
lemma atan2_zero_one : atan2 0 1 = 0 := by
  rw [atan2, if_pos (by norm_num : (0 : ℝ) < 1)]
  norm_num

/-- atan2 along the positive y axis. -/
lemma atan2_one_zero : atan2 1 0 = Real.pi / 2 := by
  rw [atan2, if_neg (by norm_num), if_neg (by norm_num), if_pos (by norm_num : (0 : ℝ) < 1)]

/-- Angle of the point (1,0) seen from the origin. -/
lemma arcAngle_e1 : arcAngle ⟨1, 0⟩ ⟨0, 0⟩ = 0 := by
  rw [arcAngle, show ((0 : ℝ) - 0) = 0 by norm_num, show ((1 : ℝ) - 0) = 1 by norm_num,
    atan2_zero_one]

/-- Angle of the point (0,1) seen from the origin. -/
lemma arcAngle_e2 : arcAngle ⟨0, 1⟩ ⟨0, 0⟩ = Real.pi / 2 := by
  rw [arcAngle, show ((1 : ℝ) - 0) = 1 by norm_num, show ((0 : ℝ) - 0) = 0 by norm_num,
    atan2_one_zero]

/-- Coincident arc endpoints give a zero angular delta. -/
lemma arcDelta_same : arcDelta ⟨1, 0⟩ ⟨1, 0⟩ ⟨0, 0⟩ = 0 := by
  rw [arcDelta, arcAngle_e1]
  have h1 : ¬ ((0 : ℝ) - 0 > Real.pi) := by
    norm_num
    exact le_of_lt Real.pi_pos
  have h2 : ¬ ((0 : ℝ) - 0 < -Real.pi) := by
    norm_num
    exact le_of_lt Real.pi_pos
  rw [if_neg h1, if_neg h2]
  norm_num

/-- A quarter turn from (1,0) to (0,1) around the origin. -/
lemma arcDelta_quarter : arcDelta ⟨1, 0⟩ ⟨0, 1⟩ ⟨0, 0⟩ = Real.pi / 2 := by
  rw [arcDelta, arcAngle_e1, arcAngle_e2]
  have h1 : ¬ (Real.pi / 2 - 0 > Real.pi) := by
    norm_num
    linarith [Real.pi_pos]
  have h2 : ¬ (Real.pi / 2 - 0 < -Real.pi) := by
    norm_num
    linarith [Real.pi_pos]
  rw [if_neg h1, if_neg h2]
  norm_num

/-- Ceiling evaluation for the quarter-turn arc. -/
lemma ceil_3pi2 : (⌈(Real.pi / 2) * 3⌉ : ℤ) = 5 := by
  rw [Int.ceil_eq_iff]
  constructor
  · push_cast
    nlinarith [Real.pi_gt_d2]
  · push_cast
    nlinarith [Real.pi_lt_d2]

/-- C4 witness: the small-angle branch at a coincident pair of arc
endpoints collapses to the single point, and on the quarter-turn arc the
count and on-circle facts instantiate at the first emitted point. -/
theorem c4_arc_join_witness :
    |arcDelta ⟨1, 0⟩ ⟨1, 0⟩ ⟨0, 0⟩| < 0.1 ∧
    createArcJoin ⟨1, 0⟩ ⟨1, 0⟩ ⟨0, 0⟩ 1 = [⟨1, 0⟩] ∧
    0.1 ≤ |arcDelta ⟨1, 0⟩ ⟨0, 1⟩ ⟨0, 0⟩| ∧
    distPts ((createArcJoin ⟨1, 0⟩ ⟨0, 1⟩ ⟨0, 0⟩ 1).getD 0 default) ⟨0, 0⟩ = |(1 : ℝ)| := by
  have h : |arcDelta ⟨1, 0⟩ ⟨1, 0⟩ ⟨0, 0⟩| < 0.1 := by
    rw [arcDelta_same]
    norm_num
  have habs : |arcDelta ⟨1, 0⟩ ⟨0, 1⟩ ⟨0, 0⟩| = Real.pi / 2 := by
    rw [arcDelta_quarter]
    exact abs_of_pos (by positivity)
  have hge : (0.1 : ℝ) ≤ |arcDelta ⟨1, 0⟩ ⟨0, 1⟩ ⟨0, 0⟩| := by
    rw [habs]
    linarith [Real.pi_gt_d2]
  have h2 := (c4_arc_join ⟨1, 0⟩ ⟨0, 1⟩ ⟨0, 0⟩ 1).2 hge
  have hlenpos : 0 < (createArcJoin ⟨1, 0⟩ ⟨0, 1⟩ ⟨0, 0⟩ 1).length := by
    rw [h2.1, habs, ceil_3pi2]
    norm_num
  have hmem : (createArcJoin ⟨1, 0⟩ ⟨0, 1⟩ ⟨0, 0⟩ 1).getD 0 default ∈
      createArcJoin ⟨1, 0⟩ ⟨0, 1⟩ ⟨0, 0⟩ 1 := by
    rw [List.getD_eq_getElem _ _ hlenpos]
    exact List.getElem_mem hlenpos
  exact ⟨h, (c4_arc_join ⟨1, 0⟩ ⟨1, 0⟩ ⟨0, 0⟩ 1).1 h, hge, h2.2 _ hmem⟩

/-- C4 counterexample: for the quarter-turn arc (delta = pi/2), the steps
count max(2, ceil(3 * pi / 2)) is 5 but only 4 points are emitted, so the
join does not emit max(2, ceil(|delta| * 3)) points as claimed. -/
theorem c4_count_counterexample :
    (createArcJoin ⟨1, 0⟩ ⟨0, 1⟩ ⟨0, 0⟩ 1).length = 4 ∧
    (max 2 ⌈|arcDelta ⟨1, 0⟩ ⟨0, 1⟩ ⟨0, 0⟩| * 3⌉ : ℤ) = 5 := by
  have habs : |arcDelta ⟨1, 0⟩ ⟨0, 1⟩ ⟨0, 0⟩| = Real.pi / 2 := by
    rw [arcDelta_quarter]
    exact abs_of_pos (by positivity)
  have hceil : (⌈(Real.pi / 2) * 3⌉ : ℤ) = 5 := by
    rw [Int.ceil_eq_iff]
    constructor
    · push_cast
      nlinarith [Real.pi_gt_d2]
    · push_cast
      nlinarith [Real.pi_lt_d2]
  have hmax : (max 2 ⌈|arcDelta ⟨1, 0⟩ ⟨0, 1⟩ ⟨0, 0⟩| * 3⌉ : ℤ) = 5 := by
    rw [habs, hceil]
    norm_num
  refine ⟨?_, hmax⟩
  rw [createArcJoin, if_neg (not_lt.mpr (by rw [habs]; linarith [Real.pi_gt_d2]))]
  simp [hmax]

/-- C2 amended: the mitre corner is accepted exactly when the intersection
point lies within offsetDistance * 3 (signed, not 3 * |distance|) of the
original vertex; in particular, for every negative offset distance the
mitre is never accepted and the arc join is always used. -/
theorem c2_mitre_threshold (currentSeg nextSeg : OffsetSeg) (v : Pt) (d : ℝ) (p : Pt)
    (hi : lineIntersection currentSeg.start currentSeg.endp nextSeg.start nextSeg.endp = some p) :
    (Real.sqrt ((p.x - v.x) ^ 2 + (p.y - v.y) ^ 2) ≤ d * 3 →
      cornerJoin currentSeg nextSeg v d = [p]) ∧
    (¬ (Real.sqrt ((p.x - v.x) ^ 2 + (p.y - v.y) ^ 2) ≤ d * 3) →
      cornerJoin currentSeg nextSeg v d = createArcJoin currentSeg.endp nextSeg.start v d) ∧
    (d < 0 →
      cornerJoin currentSeg nextSeg v d = createArcJoin currentSeg.endp nextSeg.start v d) := by
  refine ⟨?_, ?_, ?_⟩
  · intro h
    simp only [cornerJoin, hi]
    rw [if_pos h]
  · intro h
    simp only [cornerJoin, hi]
    rw [if_neg h]
  · intro hd
    have hneg : ¬ (Real.sqrt ((p.x - v.x) ^ 2 + (p.y - v.y) ^ 2) ≤ d * 3) := by
      push_neg
      exact lt_of_lt_of_le (by linarith) (Real.sqrt_nonneg _)
    simp only [cornerJoin, hi]
    rw [if_neg hneg]

/-- A right-angle corner whose offset lines meet exactly at the vertex. -/
lemma li_corner_eval : lineIntersection ⟨0, 0⟩ ⟨2, 0⟩ ⟨2, 0⟩ ⟨2, 2⟩ = some ⟨2, 0⟩ := by
  simp only [lineIntersection]
  norm_num

/-- C2 witness: with positive distance 1 and the intersection on the
vertex, the mitre is accepted. -/
theorem c2_mitre_threshold_witness :
    lineIntersection ⟨0, 0⟩ ⟨2, 0⟩ ⟨2, 0⟩ ⟨2, 2⟩ = some ⟨2, 0⟩ ∧
    cornerJoin ⟨⟨0, 0⟩, ⟨2, 0⟩⟩ ⟨⟨2, 0⟩, ⟨2, 2⟩⟩ ⟨2, 0⟩ 1 = [⟨2, 0⟩] := by
  refine ⟨li_corner_eval,
    (c2_mitre_threshold ⟨⟨0, 0⟩, ⟨2, 0⟩⟩ ⟨⟨2, 0⟩, ⟨2, 2⟩⟩ ⟨2, 0⟩ 1 ⟨2, 0⟩ li_corner_eval).1 ?_⟩
  rw [show (((2 : ℝ)) - 2) ^ 2 + (((0 : ℝ)) - 0) ^ 2 = 0 by norm_num, Real.sqrt_zero]
  norm_num

/-- The counterexample corner: the offset lines meet at (3,0). -/
lemma li_corner2_eval : lineIntersection ⟨0, 0⟩ ⟨1, 0⟩ ⟨3, 1⟩ ⟨3, 2⟩ = some ⟨3, 0⟩ := by
  simp only [lineIntersection]
  norm_num

/-- atan2 along the negative x axis. -/
lemma atan2_zero_negone : atan2 0 (-1) = Real.pi := by
  rw [atan2, if_neg (by norm_num), if_pos (by norm_num : (-1 : ℝ) < 0),
    if_pos (le_refl (0 : ℝ))]
  norm_num

/-- atan2 on the diagonal. -/
lemma atan2_one_one : atan2 1 1 = Real.pi / 4 := by
  rw [atan2, if_pos (by norm_num : (0 : ℝ) < 1)]
  norm_num [Real.arctan_one]

/-- Angle of (1,0) seen from (2,0). -/
lemma arcAngle_c2a : arcAngle ⟨1, 0⟩ ⟨2, 0⟩ = Real.pi := by
  rw [arcAngle, show ((0 : ℝ) - 0) = 0 by norm_num, show ((1 : ℝ) - 2) = -1 by norm_num,
    atan2_zero_negone]

/-- Angle of (3,1) seen from (2,0). -/
lemma arcAngle_c2b : arcAngle ⟨3, 1⟩ ⟨2, 0⟩ = Real.pi / 4 := by
  rw [arcAngle, show ((1 : ℝ) - 0) = 1 by norm_num, show ((3 : ℝ) - 2) = 1 by norm_num,
    atan2_one_one]

/-- Wrapped delta of the counterexample corner: minus three quarter turns. -/
lemma arcDelta_c2 : arcDelta ⟨1, 0⟩ ⟨3, 1⟩ ⟨2, 0⟩ = -(3 * Real.pi / 4) := by
  rw [arcDelta, arcAngle_c2a, arcAngle_c2b]
  rw [if_neg (by intro hcon; nlinarith [Real.pi_pos]),
    if_neg (by intro hcon; nlinarith [Real.pi_pos])]
  ring

/-- Ceiling evaluation for the counterexample arc. -/
lemma ceil_9pi4 : (⌈(3 * Real.pi / 4) * 3⌉ : ℤ) = 8 := by
  rw [Int.ceil_eq_iff]
  constructor
  · push_cast
    nlinarith [Real.pi_gt_d2]
  · push_cast
    nlinarith [Real.pi_lt_d2]

/-- C2 counterexample: with offset distance -1, the intersection (3,0) is
only 1 away from the vertex (2,0), within 3 * |distance| = 3, yet the code
compares against the signed bound -3 and rejects the mitre: the corner is
an arc join (of 7 points), not the intersection point. -/
theorem c2_signed_counterexample :
    lineIntersection ⟨0, 0⟩ ⟨1, 0⟩ ⟨3, 1⟩ ⟨3, 2⟩ = some ⟨3, 0⟩ ∧
    distPts ⟨3, 0⟩ ⟨2, 0⟩ ≤ 3 * |(-1 : ℝ)| ∧
    cornerJoin ⟨⟨0, 0⟩, ⟨1, 0⟩⟩ ⟨⟨3, 1⟩, ⟨3, 2⟩⟩ ⟨2, 0⟩ (-1) ≠ [⟨3, 0⟩] := by
  have hd1 : distPts ⟨3, 0⟩ ⟨2, 0⟩ = 1 := by
    rw [distPts, Real.sqrt_eq_cases]
    norm_num
  have harc : |arcDelta ⟨1, 0⟩ ⟨3, 1⟩ ⟨2, 0⟩| = 3 * Real.pi / 4 := by
    rw [arcDelta_c2, abs_neg]
    exact abs_of_pos (by positivity)
  have hlen : (createArcJoin ⟨1, 0⟩ ⟨3, 1⟩ ⟨2, 0⟩ (-1)).length = 7 := by
    rw [createArcJoin, if_neg (not_lt.mpr (by rw [harc]; nlinarith [Real.pi_gt_d2]))]
    simp [harc, ceil_9pi4]
  have hc : cornerJoin ⟨⟨0, 0⟩, ⟨1, 0⟩⟩ ⟨⟨3, 1⟩, ⟨3, 2⟩⟩ ⟨2, 0⟩ (-1) =
      createArcJoin ⟨1, 0⟩ ⟨3, 1⟩ ⟨2, 0⟩ (-1) := by
    simp only [cornerJoin, li_corner2_eval]
    rw [if_neg (not_le.mpr (by
      rw [show (((3 : ℝ)) - 2) ^ 2 + (((0 : ℝ)) - 0) ^ 2 = 1 by norm_num, Real.sqrt_one]
      norm_num))]
  refine ⟨li_corner2_eval, by rw [hd1]; norm_num, ?_⟩
  intro hcontra
  rw [hc] at hcontra
  have hlc := congrArg List.length hcontra
  rw [hlen] at hlc
  simp at hlc

/-- C6: releasing a building gesture with exactly the two distinct touched
contour indices i and j hands exactly the two corresponding
currently-rendered (offset-applied) contours to the union collaborator,
replaces them in the layer's contour list with the union result (the
untouched contours followed by the union output) and resets the stored
offset to 0; a gesture that touched exactly one contour leaves the layer
unchanged. -/
theorem c6_consolidation_gesture (unite : List VectorPath → Option (List VectorPath))
    (L : LayerModel) (i j : ℕ) (_hij : i ≠ j) (u : List VectorPath)
    (hu : unite [(pathsToConsolidate L).getD i default,
      (pathsToConsolidate L).getD j default] = some u) :
    mouseUpLayer unite L [i, j] =
      { L with
        vectorPaths :=
          (((List.range (pathsToConsolidate L).length).filter
            (fun k => !([i, j].contains k))).map
              (fun k => (pathsToConsolidate L).getD k default)) ++ u,
        offset := 0 } ∧
    (∀ k, mouseUpLayer unite L [k] = L) := by
  constructor
  · have hcons : consolidateHighlightedContours unite L [i, j] =
        some ((((List.range (pathsToConsolidate L).length).filter
          (fun k => !([i, j].contains k))).map
            (fun k => (pathsToConsolidate L).getD k default)) ++ u, 0) := by
      rw [consolidateHighlightedContours, if_neg (by simp)]
      simp only [List.map_cons, List.map_nil, hu]
    rw [mouseUpLayer, if_pos (by simp), hcons]
  · intro k
    rw [mouseUpLayer, if_neg (by simp)]

/-- C6 witness: a three-contour layer with contours 0 and 2 touched, and a
single-contour gesture. -/
theorem c6_consolidation_gesture_witness :
    mouseUpLayer (fun _ => some [⟨"u", [], true⟩])
        ⟨[⟨"a", [], true⟩, ⟨"b", [], true⟩, ⟨"c", [], true⟩], 0, 1⟩ [0, 2] =
      ⟨[⟨"b", [], true⟩, ⟨"u", [], true⟩], 0, 1⟩ ∧
    mouseUpLayer (fun _ => some [⟨"u", [], true⟩])
        ⟨[⟨"a", [], true⟩, ⟨"b", [], true⟩, ⟨"c", [], true⟩], 0, 1⟩ [1] =
      ⟨[⟨"a", [], true⟩, ⟨"b", [], true⟩, ⟨"c", [], true⟩], 0, 1⟩ := by
  have h := c6_consolidation_gesture (fun _ => some [⟨"u", [], true⟩])
    ⟨[⟨"a", [], true⟩, ⟨"b", [], true⟩, ⟨"c", [], true⟩], 0, 1⟩ 0 2 (by norm_num)
    [⟨"u", [], true⟩] rfl
  constructor
  · rw [h.1]
    have hp : pathsToConsolidate ⟨[⟨"a", [], true⟩, ⟨"b", [], true⟩, ⟨"c", [], true⟩], 0, 1⟩ =
        [⟨"a", [], true⟩, ⟨"b", [], true⟩, ⟨"c", [], true⟩] := by
      rw [pathsToConsolidate, if_neg (by norm_num)]
    simp only [hp, show List.range ([(⟨"a", [], true⟩ : VectorPath), ⟨"b", [], true⟩,
      ⟨"c", [], true⟩]).length = [0, 1, 2] from rfl]
    simp [List.filter]
  · exact h.2 1

/-- C5 amended: a throwing union collaborator leaves the layer untouched
(true no-op), but an empty union result is installed: the touched contours
are removed (only the untouched rendered contours survive) and the offset
is reset to 0 - not a no-op. -/
theorem c5_union_failure (unite : List VectorPath → Option (List VectorPath))
    (L : LayerModel) (highlighted : List ℕ) :
    (unite (highlighted.map (fun k => (pathsToConsolidate L).getD k default)) = none →
      mouseUpLayer unite L highlighted = L) ∧
    (2 ≤ highlighted.length →
      unite (highlighted.map (fun k => (pathsToConsolidate L).getD k default)) = some [] →
      consolidateHighlightedContours unite L highlighted =
        some ((((List.range (pathsToConsolidate L).length).filter
          (fun k => !(highlighted.contains k))).map
            (fun k => (pathsToConsolidate L).getD k default)), 0)) := by
  constructor
  · intro hn
    rw [mouseUpLayer]
    split_ifs with hlen
    · have hcn : consolidateHighlightedContours unite L highlighted = none := by
        rw [consolidateHighlightedContours, if_neg (by omega)]
        simp only [hn]
      rw [hcn]
    · rfl
  · intro h2 he
    rw [consolidateHighlightedContours, if_neg (by omega)]
    simp only [he, List.append_nil]

/-- C5 witness: a throwing collaborator on a two-contour layer changes
nothing; an empty union result empties the contour list and resets the
offset. -/
theorem c5_union_failure_witness :
    mouseUpLayer (fun _ => none) ⟨[⟨"a", [], true⟩, ⟨"b", [], true⟩], 0, 1⟩ [0, 1] =
      ⟨[⟨"a", [], true⟩, ⟨"b", [], true⟩], 0, 1⟩ ∧
    consolidateHighlightedContours (fun _ => some [])
        ⟨[⟨"a", [], true⟩, ⟨"b", [], true⟩], 0, 1⟩ [0, 1] = some ([], 0) := by
  constructor
  · exact (c5_union_failure (fun _ => none)
      ⟨[⟨"a", [], true⟩, ⟨"b", [], true⟩], 0, 1⟩ [0, 1]).1 rfl
  · have h := (c5_union_failure (fun _ => some [])
      ⟨[⟨"a", [], true⟩, ⟨"b", [], true⟩], 0, 1⟩ [0, 1]).2 (by norm_num) rfl
    rw [h]
    have hp : pathsToConsolidate ⟨[⟨"a", [], true⟩, ⟨"b", [], true⟩], 0, 1⟩ =
        [⟨"a", [], true⟩, ⟨"b", [], true⟩] := by
      rw [pathsToConsolidate, if_neg (by norm_num)]
    simp only [hp, show List.range ([(⟨"a", [], true⟩ : VectorPath),
      ⟨"b", [], true⟩]).length = [0, 1] from rfl]
    simp [List.filter]

/-- C5 counterexample: with both contours of a two-contour layer touched
and a union collaborator returning the empty list, the gesture installs an
empty contour list instead of leaving the layer as it was. -/
theorem c5_empty_union_counterexample :
    mouseUpLayer (fun _ => some []) ⟨[⟨"a", [], true⟩, ⟨"b", [], true⟩], 0, 1⟩ [0, 1] =
      ⟨[], 0, 1⟩ ∧
    (⟨[], 0, 1⟩ : LayerModel) ≠ ⟨[⟨"a", [], true⟩, ⟨"b", [], true⟩], 0, 1⟩ := by
  constructor
  · rw [mouseUpLayer, if_pos (by simp)]
    have hcons : consolidateHighlightedContours (fun _ => some [])
        ⟨[⟨"a", [], true⟩, ⟨"b", [], true⟩], 0, 1⟩ [0, 1] = some ([], 0) := by
      rw [consolidateHighlightedContours, if_neg (by simp)]
      have hp : pathsToConsolidate ⟨[⟨"a", [], true⟩, ⟨"b", [], true⟩], 0, 1⟩ =
          [⟨"a", [], true⟩, ⟨"b", [], true⟩] := by
        rw [pathsToConsolidate, if_neg (by norm_num)]
      simp only [hp, show List.range ([(⟨"a", [], true⟩ : VectorPath),
        ⟨"b", [], true⟩]).length = [0, 1] from rfl]
      simp [List.filter]
    rw [hcons]
  · intro hcon
    simp [LayerModel.mk.injEq] at hcon
